import Mathlib

/-!
# Verification of the influx-client core

A shallow embedding of the influx-client library (an InfluxDB HTTP client):
the line-protocol encoder (`influx/line_protocol.py`), the point-building
helpers (`_make_lines`, `_make_many_lines`), the safe-request /
auto-provision orchestration (`_safe_request`), the error classifier
(`_check_and_raise`) and the tabular result unpacker (`unpack`) from
`influx/__init__.py`.

Python values are embedded as follows: JSON documents become the `Json`
inductive (objects as insertion-ordered association lists, as Python dicts
are), scalar field/tag values become `PyVal`, Python floats are embedded as
exact rationals (decimal literals are exact; all scale factors used by the
claims are integral, so exact arithmetic and IEEE arithmetic agree on the
evaluated cases), fallible code returns `Except PyErr`, and in-place dict
mutation is embedded by returning the final state of the mutated
dictionaries explicitly.
-/

namespace Influx

/-- Errors a modelled Python operation can raise. -/
inductive PyErr where
  /-- `simplejson.JSONDecodeError` from `response.json()` on an undecodable body. -/
  | jsonDecode
  /-- `TypeError` (bad operand types, e.g. `len(5)` or `dict + list`). -/
  | typeErr
  /-- `AttributeError` (e.g. `.get` on a non-dict, `.startswith` on a non-str). -/
  | attrErr
  /-- `KeyError` from indexing a dict with a missing key or `dict.pop` with no default. -/
  | keyErr
  /-- `IndexError` from indexing an empty sequence. -/
  | indexErr
  /-- `requests.exceptions.RequestException` raised by the HTTP transport. -/
  | transportExn
  /-- `requests.exceptions.HTTPError` carrying the formatted message. -/
  | httpErr (msg : String)
  /-- `AssertionError` from the timestamp scale sanity checks. -/
  | assertErr
  /-- `ValueError` from `_convert_timestamp` on an unsupported type. -/
  | valueErr
  /-- `NameError` for an unrecognized precision string. -/
  | nameErr
deriving DecidableEq, Repr

/-- A JSON document, as decoded by `response.json()`.  Objects are
insertion-ordered association lists, mirroring Python dicts; numbers are
integers (every JSON number appearing in the modelled code paths is one). -/
inductive Json where
  | null
  | bool (b : Bool)
  | num (n : Int)
  | str (s : String)
  | arr (xs : List Json)
  | obj (kvs : List (String × Json))

/-- First-occurrence lookup in a JSON object's key-value list
(`dict[key]` / `dict.get(key)`). -/
def jlookup (key : String) : List (String × Json) → Option Json
  | [] => none
  | (k, v) :: rest => if k = key then some v else jlookup key rest

/-- Python truthiness of a decoded JSON value (`if x:`). -/
def jsonTruthy : Json → Bool
  | .null => false
  | .bool b => b
  | .num n => n ≠ 0
  | .str s => s ≠ ""
  | .arr xs => !xs.isEmpty
  | .obj kvs => !kvs.isEmpty

/-- Is `needle` a contiguous substring of `hay` (Python `needle in haystack`
for strings)? -/
def isSubstr (needle : List Char) : List Char → Bool
  | [] => needle.isEmpty
  | c :: rest => needle.isPrefixOf (c :: rest) || isSubstr needle rest

/-- Python `key in data` for a decoded JSON value: key membership for dicts,
element membership for lists (only an equal string matches), substring test
for strings, `TypeError` otherwise. -/
def pyIn (key : String) : Json → Except PyErr Bool
  | .obj kvs => .ok (kvs.any (fun kv => kv.1 = key))
  | .arr xs => .ok (xs.any (fun x => match x with | .str s => s = key | _ => false))
  | .str s => .ok (isSubstr key.toList s.toList)
  | _ => .error .typeErr

/-- Python `data[key]` for a string key: dict lookup (`KeyError` when
missing), `TypeError` on anything else (string/list indices must be
integers). -/
def pyGetItem (j : Json) (key : String) : Except PyErr Json :=
  match j with
  | .obj kvs =>
    match jlookup key kvs with
    | some v => .ok v
    | none => .error .keyErr
  | _ => .error .typeErr

/-- Python `data.get(key, default)`: only dicts have `.get`
(`AttributeError` otherwise). -/
def pyDictGetD (j : Json) (key : String) (dflt : Json) : Except PyErr Json :=
  match j with
  | .obj kvs => .ok ((jlookup key kvs).getD dflt)
  | _ => .error .attrErr

/-- Python `len(x)`: sequences and dicts have a length, scalars raise
`TypeError`. -/
def pyLen : Json → Except PyErr Nat
  | .arr xs => .ok xs.length
  | .str s => .ok s.length
  | .obj kvs => .ok kvs.length
  | _ => .error .typeErr

/-- Python `x[0]`: head of a list, first character of a string (as a
one-character string), `KeyError` for a dict without the key `0`,
`TypeError` for scalars. -/
def pyIndex0 : Json → Except PyErr Json
  | .arr [] => .error .indexErr
  | .arr (x :: _) => .ok x
  | .str s => match s.toList with
    | [] => .error .indexErr
    | c :: _ => .ok (.str (String.mk [c]))
  | .obj _ => .error .keyErr
  | _ => .error .typeErr

/-- Python `x.startswith(p)`: defined for strings, `AttributeError`
otherwise. -/
def pyStartswith (j : Json) (p : String) : Except PyErr Bool :=
  match j with
  | .str s => .ok (p.toList.isPrefixOf s.toList)
  | _ => .error .attrErr

/-- Join strings with a separator (Python `sep.join(xs)`). -/
def joinSep (sep : String) : List String → String
  | [] => ""
  | [x] => x
  | x :: y :: rest => x ++ sep ++ joinSep sep (y :: rest)

mutual

/-- Python `repr()` of a decoded JSON value (string escaping inside
`repr` is simplified; no claim depends on container rendering). -/
def pyReprJson : Json → String
  | .null => "None"
  | .bool b => if b then "True" else "False"
  | .num n => toString n
  | .str s => "'" ++ s ++ "'"
  | .arr xs => "[" ++ joinSep ", " (pyReprArr xs) ++ "]"
  | .obj kvs => "\x7b" ++ joinSep ", " (pyReprObj kvs) ++ "\x7d"

/-- `repr` of each element of a JSON array. -/
def pyReprArr : List Json → List String
  | [] => []
  | x :: xs => pyReprJson x :: pyReprArr xs

/-- `repr` of each entry of a JSON object. -/
def pyReprObj : List (String × Json) → List String
  | [] => []
  | kv :: rest => ("'" ++ kv.1 ++ "': " ++ pyReprJson kv.2) :: pyReprObj rest

end

/-- Python `str()` of a decoded JSON value (used when a non-string error
message is interpolated into the HTTP error text). -/
def pyStrJson : Json → String
  | .str s => s
  | j => pyReprJson j

/-- An HTTP response as seen by the client: status code, decoded JSON body
(`none` when `response.json()` would raise a decode error), reason phrase
(already decoded to text; the utf-8/latin-1 byte decoding shim is not
modelled separately) and URL. -/
structure Response where
  status : Nat
  body : Option Json
  reason : String
  url : String

/-- The message format of `_check_and_raise`:
`"{status} {reason} for {url}"`. -/
def mkHttpMsg (status : Nat) (reason url : String) : String :=
  toString status ++ " " ++ reason ++ " for " ++ url

/-- The error-message sniffing expression of `_check_and_raise`:
`msg.get('error', (msg.get('results', []) + [{}]).pop().get('error', None))`.
Python evaluates the default argument (the `results`-based expression)
before the outer `.get`, so a non-list `results` value raises a `TypeError`
(from `+ [{}]`) even when a top-level `error` key exists.  Note that
`list.pop()` with no argument removes the *last* element of
`results + [{}]`, which is always the freshly appended `{}`: the
`results`-based extraction therefore always evaluates to `None`, whatever
the `results` list contains, and only a top-level `error` key can ever
produce a message.  Returns the message (`none` models Python `None`). -/
def jsonMsgExtract (j : Json) : Except PyErr (Option Json) :=
  match j with
  | .obj kvs =>
    let res := (jlookup "results" kvs).getD (.arr [])
    match res with
    | .arr _ =>
      match jlookup "error" kvs with
      | some v => .ok (some v)
      | none => .ok Option.none
    | _ => .error .typeErr
  | _ => .error .attrErr

/-- `InfluxDB._check_and_raise`: returns normally for status codes below
400; otherwise raises an `HTTPError` whose message is
`"{status} {message-or-reason} for {url}"`, where the message is sniffed
from the JSON body (a body that fails to decode is tolerated; a decoded
body of unexpected shape raises the corresponding `TypeError` /
`AttributeError`, which the source does not catch). -/
def checkAndRaise (r : Response) : Except PyErr Unit :=
  if r.status < 400 then .ok ()
  else
    match r.body with
    | none => .error (.httpErr (mkHttpMsg r.status r.reason r.url))
    | some j =>
      match jsonMsgExtract j with
      | .error e => .error e
      | .ok msgOpt =>
        let reason := match msgOpt with
          | some m => if jsonTruthy m then pyStrJson m else r.reason
          | none => r.reason
        .error (.httpErr (mkHttpMsg r.status reason r.url))

/-- The `([], [])` value `unpack` degrades to. -/
def unpackEmpty : Json × Json := (.arr [], .arr [])

/-- `InfluxDB.unpack`: extract `(columns, values)` from
`result['results'][0]['series'][0]`, degrading to `([], [])` at every
guarded level, exactly following the source's truthiness and
`isinstance(_, dict)` checks. -/
def unpack (result : Json) : Except PyErr (Json × Json) :=
  match result with
  | .obj kvs =>
    let res := (jlookup "results" kvs).getD .null
    if !jsonTruthy res then .ok unpackEmpty
    else match pyLen res with
      | .error e => .error e
      | .ok n =>
        if n = 0 then .ok unpackEmpty
        else match pyIndex0 res with
          | .error e => .error e
          | .ok st =>
            if !jsonTruthy st then .ok unpackEmpty else
            match st with
            | .obj skvs =>
              let ser := (jlookup "series" skvs).getD .null
              if !jsonTruthy ser then .ok unpackEmpty
              else match pyLen ser with
                | .error e => .error e
                | .ok m =>
                  if m = 0 then .ok unpackEmpty
                  else match pyIndex0 ser with
                    | .error e => .error e
                    | .ok s0 =>
                      if !jsonTruthy s0 then .ok unpackEmpty else
                      match s0 with
                      | .obj s0kvs =>
                        let cols := (jlookup "columns" s0kvs).getD .null
                        if !jsonTruthy cols then .ok unpackEmpty
                        else match pyLen cols with
                          | .error e => .error e
                          | .ok c =>
                            if c = 0 then .ok unpackEmpty
                            else .ok (cols, (jlookup "values" s0kvs).getD (.arr []))
                      | _ => .ok unpackEmpty
            | _ => .ok unpackEmpty
  | _ => .error .attrErr

/-- The result of one call to the HTTP transport
(`requests.Session.request`): a response, or a raised
`RequestException`. -/
inductive CallRes where
  | resp (r : Response)
  | exn

/-- Which underlying request a transport call served: the caller's
formatted request, or the auto-provisioning `CREATE DATABASE` query. -/
inductive CallKind where
  | original
  | createDb
deriving DecidableEq, Repr

/-- What `_safe_request` does in the end: return a response, let an
exception propagate, or (model artifact) run out of scripted transport
results. -/
inductive Outcome where
  | ok (r : Response)
  | raised (e : PyErr)
  | noMoreCalls

/-- Python falsiness of the `database` keyword argument
(`if not database:`): absent or empty string. -/
def dbFalsy : Option String → Bool
  | none => true
  | some d => d = ""

/-- Does a JSON body equal the canonical create-database success value
`{'results': [{'statement_id': 0}]}` under Python `==`?  (Python dict
equality is key-set based; `0` also equals `False` and `0.0`.) -/
def isCanonicalCreateResp : Json → Bool
  | .obj kvs =>
    kvs.all (fun kv => kv.1 = "results") &&
    match jlookup "results" kvs with
    | some (.arr [inner]) =>
      (match inner with
       | .obj kvs2 =>
         kvs2.all (fun kv => kv.1 = "statement_id") &&
         (match jlookup "statement_id" kvs2 with
          | some (.num n) => n = 0
          | some (.bool b) => b = false
          | _ => false)
       | _ => false)
    | _ => false
  | _ => false

/-- `InfluxDB.create_database`, as exercised by `_safe_request`: one
transport call, `_check_and_raise`, then `response.json()`.  `caughtReqExn`
covers everything `except RequestException` in `_safe_request` catches
(transport failures and the `HTTPError` from `_check_and_raise`);
`uncaught` carries exceptions that propagate past that handler (the JSON
decode error from `resp.json()` and shape errors from the message
sniffing). -/
inductive CreateOutcome where
  | jsonOf (j : Json)
  | caughtReqExn
  | uncaught (e : PyErr)

/-- One step of `create_database` against the next scripted transport
result. -/
def createDatabase : CallRes → CreateOutcome
  | .exn => .caughtReqExn
  | .resp r =>
    match checkAndRaise r with
    | .error (.httpErr _) => .caughtReqExn
    | .error e => .uncaught e
    | .ok _ =>
      match r.body with
      | none => .uncaught .jsonDecode
      | some j => .jsonOf j

/-- The tail of `_safe_request` once a database-missing error has been
recognised: create the database (second transport call); on a caught
`RequestException` or a non-canonical create response return the original
response; otherwise retry the original request (third transport call) and
return that response whatever it is. -/
def proceedCreate (r1 : Response) (rest : List CallRes) : Outcome × List CallKind :=
  match rest with
  | [] => (.noMoreCalls, [.original])
  | c2 :: rest2 =>
    match createDatabase c2 with
    | .caughtReqExn => (.ok r1, [.original, .createDb])
    | .uncaught e => (.raised e, [.original, .createDb])
    | .jsonOf j =>
      if isCanonicalCreateResp j then
        match rest2 with
        | [] => (.noMoreCalls, [.original, .createDb])
        | .exn :: _ => (.raised .transportExn, [.original, .createDb, .original])
        | .resp r3 :: _ => (.ok r3, [.original, .createDb, .original])
      else (.ok r1, [.original, .createDb])

/-- `InfluxDB._safe_request` over a scripted list of transport results:
issue the request; when a database name was supplied and the response is a
200/404 whose JSON body carries a `database not found` error (top-level
`error` key, or an `error` in a single-statement `results` list — only the
latter path checks the `database not found` prefix), create the database
and retry once.  Returns the outcome together with the trace of transport
calls actually issued. -/
def safeRequest (database : Option String) (transport : List CallRes) :
    Outcome × List CallKind :=
  match transport with
  | [] => (.noMoreCalls, [])
  | .exn :: _ => (.raised .transportExn, [.original])
  | .resp r1 :: rest =>
    if dbFalsy database then (.ok r1, [.original])
    else if r1.status ≠ 200 ∧ r1.status ≠ 404 then (.ok r1, [.original])
    else match r1.body with
      | none => (.raised .jsonDecode, [.original])
      | some data =>
        match pyIn "error" data with
        | .error e => (.raised e, [.original])
        | .ok true =>
          match pyGetItem data "error" with
          | .error e => (.raised e, [.original])
          | .ok _ => proceedCreate r1 rest
        | .ok false =>
          match pyIn "results" data with
          | .error e => (.raised e, [.original])
          | .ok false => (.ok r1, [.original])
          | .ok true =>
            match pyDictGetD data "results" (.arr []) with
            | .error e => (.raised e, [.original])
            | .ok stmts =>
              match pyLen stmts with
              | .error e => (.raised e, [.original])
              | .ok n =>
                if n ≠ 1 then (.ok r1, [.original])
                else match pyIndex0 stmts with
                | .error e => (.raised e, [.original])
                | .ok st0 =>
                  match pyIn "error" st0 with
                  | .error e => (.raised e, [.original])
                  | .ok false => (.ok r1, [.original])
                  | .ok true =>
                    match pyGetItem st0 "error" with
                    | .error e => (.raised e, [.original])
                    | .ok errv =>
                      match pyStartswith errv "database not found" with
                      | .error e => (.raised e, [.original])
                      | .ok false => (.ok r1, [.original])
                      | .ok true => proceedCreate r1 rest

/-- An exact fraction `num / den`, the embedding of a Python float.
Decimal float literals are embedded exactly, and every scale factor the
claims exercise is integral, so exact and IEEE arithmetic agree on all
evaluated cases. -/
structure PyFloat where
  num : Int
  den : Nat
deriving DecidableEq, Repr

/-- Fraction multiplication (no normalization needed: rendering and
truncation below work on any representation). -/
def mulF (a b : PyFloat) : PyFloat := ⟨a.num * b.num, a.den * b.den⟩

/-- Python `int()` truncation toward zero of a fraction. -/
def truncF (a : PyFloat) : Int :=
  if 0 ≤ a.num then (a.num.toNat / a.den : Nat)
  else -(((-a.num).toNat / a.den : Nat) : Int)

/-- A scalar Python value appearing in a tag or field mapping.  Calendar
(`datetime`) timestamps are outside the model; no claim mentions them. -/
inductive PyVal where
  | none
  | bool (b : Bool)
  | int (n : Int)
  | float (q : PyFloat)
  | str (s : String)
deriving DecidableEq, Repr

/-- A Python dict with string keys: an insertion-ordered association list
with (in well-formed inputs) no duplicate keys. -/
abbrev Dict := List (String × PyVal)

/-- First-occurrence lookup (`d[k]` / `d.get(k)`). -/
def dictGet (k : String) : Dict → Option PyVal
  | [] => Option.none
  | (k', v) :: rest => if k' = k then some v else dictGet k rest

/-- `d.get(k, dflt)`. -/
def dictGetD (k : String) (d : Dict) (dflt : PyVal) : PyVal :=
  (dictGet k d).getD dflt

/-- `d.pop(k)`: value of the first entry with key `k` plus the dict with
that entry removed, or `Option.none` (Python `KeyError`) when absent. -/
def dictPop (k : String) : Dict → Option (PyVal × Dict)
  | [] => Option.none
  | (k', v) :: rest =>
    if k' = k then some (v, rest)
    else (dictPop k rest).map (fun p => (p.1, (k', v) :: p.2))

/-- `d[k] = v`: replace in place when the key exists, else append. -/
def dictSet (k : String) (v : PyVal) : Dict → Dict
  | [] => [(k, v)]
  | (k', v') :: rest => if k' = k then (k, v) :: rest else (k', v') :: dictSet k v rest

/-- `base.update(upd)` applied to a copy of `base`. -/
def dictUpdate (base upd : Dict) : Dict :=
  upd.foldl (fun acc kv => dictSet kv.1 kv.2 acc) base

/-- `dict(zip(ks, vs))`: pair up to the shorter list; a repeated key keeps
its first position with its last value. -/
def dictZip (ks : List String) (vs : List PyVal) : Dict :=
  (List.zip ks vs).foldl (fun acc kv => dictSet kv.1 kv.2 acc) []

/-- Python truthiness of a scalar value. -/
def pyTruthy : PyVal → Bool
  | .none => false
  | .bool b => b
  | .int n => !(n == 0)
  | .float q => !(q.num == 0)
  | .str s => !(s == "")

/-- Decimal digit character. -/
def digitChar (n : Nat) : Char := Char.ofNat (48 + n)

/-- Decimal digits of a natural number (fuel-driven; 40 digits suffice for
every value the code can produce). -/
def natChars : Nat → Nat → List Char
  | 0, _ => []
  | f + 1, n => if n < 10 then [digitChar n] else natChars f (n / 10) ++ [digitChar (n % 10)]

/-- Python `str` of a natural number. -/
def natStr (n : Nat) : List Char := natChars 40 n

/-- Python `str` of an integer. -/
def intChars (i : Int) : List Char :=
  if i < 0 then '-' :: natStr i.natAbs else natStr i.toNat

/-- Decimal expansion digits of a fraction `r/d` (`0 < r < d`), fuel-driven;
terminates naturally on the decimal-representable rationals the model
evaluates. -/
def fracChars : Nat → Nat → Nat → List Char
  | 0, _, _ => []
  | f + 1, r, d =>
    if r = 0 then []
    else digitChar (r * 10 / d) :: fracChars f (r * 10 % d) d

/-- Python `repr` of a float embedded as a rational: exact decimal
expansion with at least one fractional digit (`repr(1.0) = '1.0'`).
Matches CPython's shortest round-trip repr on the short decimal literals
the code and claims use. -/
def reprQ (q : PyFloat) : List Char :=
  let sign := if q.num < 0 then ['-'] else []
  let n := q.num.natAbs
  let d := q.den
  let r := n % d
  sign ++ natStr (n / d) ++ '.' :: (if r = 0 then ['0'] else fracChars 40 r d)

/-- `_get_unicode(data, force=True)`: `None` becomes the empty string,
strings pass through, everything else is rendered with `str()`. -/
def pyStrForce : PyVal → List Char
  | .none => []
  | .str s => s.toList
  | .bool b => if b then "True".toList else "False".toList
  | .int n => intChars n
  | .float q => reprQ q

/-- Python `s.replace(c, rep)` for a single-character pattern. -/
def pyReplaceChar (c : Char) (rep : List Char) : List Char → List Char
  | [] => []
  | x :: xs => (if x = c then rep else [x]) ++ pyReplaceChar c rep xs

/-- The `_escape_tag` replacement chain: escape backslash first, then
space, comma and equals, each with a backslash prefix. -/
def escapeChars (s : List Char) : List Char :=
  pyReplaceChar '=' ['\\', '=']
    (pyReplaceChar ',' ['\\', ',']
      (pyReplaceChar ' ' ['\\', ' ']
        (pyReplaceChar '\\' ['\\', '\\'] s)))

/-- `_escape_tag`: coerce to text, then escape. -/
def escape_tag (v : PyVal) : List Char := escapeChars (pyStrForce v)

/-- `_escape_tag_value`: as `_escape_tag`, plus a trailing space when the
escaped text would end in a backslash. -/
def escape_tag_value (v : PyVal) : List Char :=
  let r := escape_tag v
  if r.getLast? = some '\\' then r ++ [' '] else r

/-- `quote_ident`: double-quote a string value, escaping backslash, double
quote and newline. -/
def quoteIdent (s : List Char) : List Char :=
  '"' :: (pyReplaceChar '\n' ['\\', 'n']
    (pyReplaceChar '"' ['\\', '"']
      (pyReplaceChar '\\' ['\\', '\\'] s))) ++ ['"']

/-- `_escape_value`: strings are quoted (the empty string degrades to the
empty rendering and the field is dropped), non-bool integers render as bare
decimals, floats and bools through `repr`, `None` renders empty. -/
def escape_value : PyVal → List Char
  | .none => []
  | .str s => if s = "" then [] else quoteIdent s.toList
  | .int n => intChars n
  | .bool b => if b then "True".toList else "False".toList
  | .float q => reprQ q

/-- `_convert_timestamp`'s scale factor per precision (`NameError` models
the unbound `factor` for an unrecognized precision string). -/
def precFactor : Option String → Except PyErr PyFloat
  | Option.none => .ok ⟨1000000000, 1⟩
  | some "n" => .ok ⟨1000000000, 1⟩
  | some "u" => .ok ⟨1000000, 1⟩
  | some "ms" => .ok ⟨1000, 1⟩
  | some "s" => .ok ⟨1, 1⟩
  | some "m" => .ok ⟨1, 60⟩
  | some "h" => .ok ⟨1, 3600⟩
  | some _ => .error .nameErr

/-- `_convert_timestamp`: integers (and bools, which are `Integral`) pass
through unscaled after the precision sanity assertions; floats are
multiplied by the scale factor; other values raise `ValueError` (the
`datetime` branch is outside the model — no claim exercises it). -/
def convert_timestamp (t : PyVal) (precision : Option String) : Except PyErr PyFloat :=
  match t with
  | .int n =>
    if precision = some "u" ∧ ¬n < 10 ^ 18 then .error .assertErr
    else if precision = some "ms" ∧ ¬n < 10 ^ 15 then .error .assertErr
    else if precision = some "s" ∧ ¬n < 10 ^ 12 then .error .assertErr
    else .ok ⟨n, 1⟩
  | .bool b => .ok ⟨if b then 1 else 0, 1⟩
  | .float q => (precFactor precision).map (mulF q)
  | _ => .error .valueErr

/-- A point as assembled by `_make_lines` / `_make_many_lines`: the dict
keys `measurement`, `fields`, `tags` and the optional `time`. -/
structure Point where
  measurement : String
  fields : Dict
  tags : Dict
  time : Option PyVal

/-- Key comparison used by client-side sorting: Python compares strings by
code point. -/
def charListLe : List Char → List Char → Bool
  | [], _ => true
  | _ :: _, [] => false
  | a :: as, b :: bs =>
    if a.val < b.val then true
    else if b.val < a.val then false
    else charListLe as bs

/-- `strLe a b` iff `a <= b` in Python string order. -/
def strLe (a b : String) : Bool := charListLe a.toList b.toList

/-- Insert an entry into a key-sorted run. -/
def insortKey (x : String × PyVal) : List (String × PyVal) → List (String × PyVal)
  | [] => [x]
  | y :: ys => if strLe x.1 y.1 then x :: y :: ys else y :: insortKey x ys

/-- `sorted(d.items())` (keys are unique in well-formed dicts, so sorting
by key alone matches Python's tuple comparison). -/
def sortByKey : List (String × PyVal) → List (String × PyVal)
  | [] => []
  | x :: xs => insortKey x (sortByKey xs)

/-- `','.join`-style concatenation. -/
def joinChar (sep : Char) : List (List Char) → List Char
  | [] => []
  | [x] => x
  | x :: y :: rest => x ++ sep :: joinChar sep (y :: rest)

/-- The rendered `key=value` tag pairs of a tag dict: sorted by key,
escaped, dropping any pair whose escaped key or value is empty. -/
def renderTagPairs (tags : Dict) : List (List Char) :=
  (sortByKey tags).filterMap fun kv =>
    let k := escapeChars kv.1.toList
    let v := escape_tag_value kv.2
    if k ≠ [] ∧ v ≠ [] then some (k ++ '=' :: v) else Option.none

/-- The rendered `key=value` field pairs of a field dict: sorted by key,
key escaped like a tag, value through `_escape_value`, dropping any pair
whose rendered key or value is empty. -/
def renderFieldPairs (fields : Dict) : List (List Char) :=
  (sortByKey fields).filterMap fun kv =>
    let k := escapeChars kv.1.toList
    let v := escape_value kv.2
    if k ≠ [] ∧ v ≠ [] then some (k ++ '=' :: v) else Option.none

/-- The tag dict a point is encoded with: a copy of the batch's static tags
updated with the point's own tags (point tags win), or just the point tags
when there are no static tags. -/
def pointMergedTags (staticTags : Dict) (p : Point) : Dict :=
  if staticTags.isEmpty then p.tags else dictUpdate staticTags p.tags

/-- Encode one point to a line: the comma-joined measurement+tags segment,
the comma-joined fields segment, and the optional converted timestamp,
space-joined. -/
def encodePoint (staticTags : Dict) (precision : Option String) (p : Point) :
    Except PyErr (List Char) :=
  let head := joinChar ',' (escapeChars p.measurement.toList :: renderTagPairs (pointMergedTags staticTags p))
  let fstr := joinChar ',' (renderFieldPairs p.fields)
  match p.time with
  | Option.none => .ok (joinChar ' ' [head, fstr])
  | some t => (convert_timestamp t precision).map fun q =>
      joinChar ' ' [head, fstr, intChars (truncF q)]

/-- `line_protocol.make_lines`: encode every point, join the lines with
newlines and append a trailing newline. -/
def make_lines (staticTags : Dict) (points : List Point) (precision : Option String) :
    Except PyErr (List Char) :=
  (points.mapM (encodePoint staticTags precision)).map fun ls => joinChar '\n' ls ++ ['\n']

/-- The static tags left after removing every `VALUE`-sentinel entry
(`del tags[tag]` inside the items loop). -/
def stripValueTags (tags : Dict) : Dict :=
  tags.filter fun kv => !(kv.2 == PyVal.str "VALUE")

/-- The keys of the `VALUE`-sentinel entries, in insertion order. -/
def valueKeys (tags : Dict) : List String :=
  (tags.filter fun kv => kv.2 == PyVal.str "VALUE").map Prod.fst

/-- `fields.pop(k)` for each value-tag key in order, with no default: a
missing key raises `KeyError` (third component), leaving the fields popped
so far.  Returns the accumulated point tags and the final field dict. -/
def popAllState : List String → Dict → Dict × Dict × Option PyErr
  | [], f => ([], f, Option.none)
  | k :: ks, f =>
    match dictPop k f with
    | some (v, f') =>
      let r := popAllState ks f'
      ((k, v) :: r.1, r.2.1, r.2.2)
    | Option.none => ([], f, some .keyErr)

/-- `line.pop(k, None)` for each value-tag key in order (multi-row path):
missing keys contribute a `None` tag value instead of raising. -/
def popAllD : List String → Dict → Dict × Dict
  | [], f => ([], f)
  | k :: ks, f =>
    match dictPop k f with
    | some (v, f') =>
      let r := popAllD ks f'
      ((k, v) :: r.1, r.2)
    | Option.none =>
      let r := popAllD ks f
      ((k, PyVal.none) :: r.1, r.2)

/-- `InfluxDB._make_lines` (single-point path).  The caller's `tags` and
`fields` dicts are mutated in place by the value-tag extraction; the second
and third components are their final states as the caller observes them
(computed before encoding, so they stand even when encoding fails). -/
def makeLinesSingle (measurement : String) (fields tags : Dict) (time : PyVal)
    (precision : Option String) : Except PyErr (List Char) × Dict × Dict :=
  let tags' := stripValueTags tags
  let r := popAllState (valueKeys tags) fields
  match r.2.2 with
  | some e => (.error e, tags', r.2.1)
  | Option.none =>
    (make_lines tags' [⟨measurement, r.2.1, r.1, some time⟩] precision, tags', r.2.1)

/-- One row of `_make_many_lines`: zip the field names with the row, pop
the value-tag keys (default `None`), then pop the time field out as the
timestamp only when the time field name and the row's value for it are both
truthy. -/
def manyRowPoint (measurement : String) (vks : List String) (fields : List String)
    (row : List PyVal) (timeField : Option String) : Point :=
  let r := popAllD vks (dictZip fields row)
  let withoutTime : Point := ⟨measurement, r.2, r.1, Option.none⟩
  match timeField with
  | some tf =>
    if tf ≠ "" ∧ pyTruthy (dictGetD tf r.2 PyVal.none) then
      match dictPop tf r.2 with
      | some (v, line') => ⟨measurement, line', r.1, some v⟩
      | Option.none => withoutTime
    else withoutTime
  | Option.none => withoutTime

/-- `InfluxDB._make_many_lines`.  The source copies the caller's tag dict
before mutating (`tags = dict(tags)`), so the caller's mapping is returned
unchanged as the second component. -/
def makeManyLines (measurement : String) (fields : List String)
    (values : List (List PyVal)) (tags : Dict) (timeField : Option String)
    (precision : Option String) : Except PyErr (List Char) × Dict :=
  let vks := valueKeys tags
  let static := stripValueTags tags
  let points := values.map fun row => manyRowPoint measurement vks fields row timeField
  (make_lines static points precision, tags)

/-- The JSON body `{'results': [{'error': 'database not found'}]}`. -/
def dbNotFoundBody : Json :=
  .obj [("results", .arr [.obj [("error", .str "database not found")]])]

/-- The canonical create-database success body
`{'results': [{'statement_id': 0}]}`. -/
def canonicalCreateBody : Json :=
  .obj [("results", .arr [.obj [("statement_id", .num 0)]])]

/-- Single-pass characterization of the `_escape_tag` replacement chain:
each special character (backslash, space, comma, equals) gets a backslash
prefix, all others pass through. -/
def encChar (c : Char) : List Char :=
  if c = '\\' ∨ c = ' ' ∨ c = ',' ∨ c = '=' then ['\\', c] else [c]

/-- A string is well-escaped when, scanning left to right, every backslash
escapes the character after it and no space, comma or equals occurs outside
such an escape (so the text contains no unescaped special character). -/
def wellEscaped : List Char → Bool
  | [] => true
  | c :: rest =>
    if c = '\\' then
      match rest with
      | [] => false
      | _ :: rest' => wellEscaped rest'
    else !(c = ' ' ∨ c = ',' ∨ c = '=') && wellEscaped rest

/-! ## Supporting lemmas -/

lemma proceedCreate_trace (r : Response) (rest : List CallRes) :
    (proceedCreate r rest).2 = [.original] ∨
    (proceedCreate r rest).2 = [.original, .createDb] ∨
    (proceedCreate r rest).2 = [.original, .createDb, .original] := by
  unfold proceedCreate
  rcases rest with _ | ⟨c2, rest2⟩
  · simp
  · rcases h : createDatabase c2 with j | _ | e <;> simp [h]
    split
    · rcases rest2 with _ | ⟨c3, _⟩
      · simp
      · cases c3 <;> simp
    · simp

lemma safeRequest_trace (db : Option String) (tr : List CallRes) :
    (safeRequest db tr).2 = [] ∨
    (safeRequest db tr).2 = [.original] ∨
    (safeRequest db tr).2 = [.original, .createDb] ∨
    (safeRequest db tr).2 = [.original, .createDb, .original] := by
  rcases tr with _ | ⟨c1, rest⟩
  · simp [safeRequest]
  · cases c1 with
    | exn => simp [safeRequest]
    | resp r1 =>
      simp only [safeRequest]
      repeat' split
      all_goals first
        | simp
        | (rcases proceedCreate_trace r1 rest with h | h | h <;> simp [h])

lemma safeRequest_count_original (db : Option String) (tr : List CallRes) :
    ((safeRequest db tr).2.count CallKind.original) ≤ 2 := by
  rcases safeRequest_trace db tr with h | h | h | h <;> rw [h] <;> decide

lemma jlookup_none_any (k : String) (kvs : List (String × Json))
    (h : jlookup k kvs = Option.none) :
    (kvs.any fun kv => kv.1 = k) = false := by
  induction kvs with
  | nil => simp
  | cons kv rest ih =>
    by_cases hk : kv.1 = k
    · simp [jlookup, hk] at h
    · simp only [jlookup, if_neg hk] at h
      simp [hk, ih h]

lemma jlookup_some_any (k : String) (v : Json) (kvs : List (String × Json))
    (h : jlookup k kvs = some v) :
    (kvs.any fun kv => kv.1 = k) = true := by
  induction kvs with
  | nil => simp [jlookup] at h
  | cons kv rest ih =>
    by_cases hk : kv.1 = k
    · simp [hk]
    · simp only [jlookup, if_neg hk] at h
      simp [hk, ih h]

lemma proceedCreate_cons_mem (r : Response) (c2 : CallRes) (rest2 : List CallRes) :
    CallKind.createDb ∈ (proceedCreate r (c2 :: rest2)).2 := by
  unfold proceedCreate
  rcases h : createDatabase c2 with j | _ | e <;> simp [h]
  split
  · rcases rest2 with _ | ⟨c3, _⟩
    · simp
    · cases c3 <;> simp
  · simp

/-! ## Claim C1: safe-request retry -/

/-- **C1, counterexample.**  The claim constrains only the *body* of the
create-database response.  When that response carries the canonical body
`{'results': [{'statement_id': 0}]}` but an error status (500),
`_check_and_raise` inside `create_database` raises an `HTTPError`, which
`_safe_request` catches as a `RequestException`: only 2 HTTP calls are
issued and the *first* response is returned — not 3 calls returning the
third, as claimed. -/
theorem claim1_counterexample :
    safeRequest (some "db")
      [.resp ⟨404, some dbNotFoundBody, "Not Found", "http://h/w"⟩,
       .resp ⟨500, some canonicalCreateBody, "Err", "http://h/q"⟩,
       .resp ⟨200, Option.none, "OK", "http://h/w"⟩]
      = (.ok ⟨404, some dbNotFoundBody, "Not Found", "http://h/w"⟩,
         [.original, .createDb])
    ∧ (safeRequest (some "db")
      [.resp ⟨404, some dbNotFoundBody, "Not Found", "http://h/w"⟩,
       .resp ⟨500, some canonicalCreateBody, "Err", "http://h/q"⟩,
       .resp ⟨200, Option.none, "OK", "http://h/w"⟩]).2.length = 2 :=
  ⟨rfl, rfl⟩

/-- **C1, amended.**  Safe-request retry: when a database name is supplied
and the first response has status 404 with JSON body
`{results: [{error: 'database not found'}]}`, and the subsequent
create-database response is a *success* (status below 400) whose body
equals `{results: [{statement_id: 0}]}`, the orchestrator issues exactly 3
underlying HTTP calls (original, create-database, retried original) and
returns the third response whatever it is; and in no execution is the
original request reissued more than once. -/
theorem claim1_safe_request_retry (d re1 u1 re2 u2 : String) (s2 : Nat)
    (r3 : Response) (rest : List CallRes) (hd : d ≠ "") (hs2 : s2 < 400) :
    safeRequest (some d)
      (.resp ⟨404, some dbNotFoundBody, re1, u1⟩ ::
       .resp ⟨s2, some canonicalCreateBody, re2, u2⟩ :: .resp r3 :: rest)
      = (.ok r3, [.original, .createDb, .original])
    ∧ ∀ (db : Option String) (tr : List CallRes),
        ((safeRequest db tr).2.count CallKind.original) ≤ 2 := by
  refine ⟨?_, fun db tr => safeRequest_count_original db tr⟩
  simp [safeRequest, proceedCreate, createDatabase, checkAndRaise, dbFalsy, hd, hs2,
    dbNotFoundBody, canonicalCreateBody, pyIn, pyGetItem, pyDictGetD, pyLen,
    pyIndex0, pyStartswith, isSubstr, jlookup, isCanonicalCreateResp]

/-- **C1, witness.** -/
theorem claim1_witness :
    safeRequest (some "db")
      [.resp ⟨404, some dbNotFoundBody, "Not Found", "http://h/w"⟩,
       .resp ⟨200, some canonicalCreateBody, "OK", "http://h/q"⟩,
       .resp ⟨204, Option.none, "No Content", "http://h/w"⟩]
      = (.ok ⟨204, Option.none, "No Content", "http://h/w"⟩,
         [.original, .createDb, .original]) :=
  (claim1_safe_request_retry "db" "Not Found" "http://h/w" "OK" "http://h/q" 200
    ⟨204, Option.none, "No Content", "http://h/w"⟩ [] (by decide) (by decide)).1

/-! ## Claim C2: error message extraction in `_check_and_raise` -/

/-- **C2, code behavior at the failing input.**  The claim (and the spec)
say an `error` string in the last entry of the `results` list supersedes
the reason phrase.  The code cannot do this:
`(msg.get('results', []) + [{}]).pop()` pops the *last* element of the
concatenated list, which is always the freshly appended `{}`, so the
`results`-based extraction always yields `None` and the reason phrase is
kept whenever the body has no top-level `error` key.  At status 500 with
body `{'results': [{'error': 'boom'}]}` the code raises
`"500 Server Error for http://h/q"`, not the claim's
`"500 boom for http://h/q"`.  (The expression's shape — appending `{}` as
an empty-list fallback and calling `.get('error', None)` on the popped
entry — only makes sense as an attempt to read the last *results* entry, so
the spec describes the intent and the code is a slip.) -/
theorem claim2_code_behavior :
    checkAndRaise ⟨500, some (.obj [("results", .arr [.obj [("error", .str "boom")]])]),
        "Server Error", "http://h/q"⟩
      = .error (.httpErr "500 Server Error for http://h/q")
    ∧ mkHttpMsg 500 "boom" "http://h/q" = "500 boom for http://h/q"
    ∧ "500 Server Error for http://h/q" ≠ mkHttpMsg 500 "boom" "http://h/q" :=
  ⟨rfl, rfl, by decide⟩

/-! ## Claim C3: decode failures in `_safe_request` -/

/-- **C3, counterexample.**  `_safe_request` calls `resp.json()` with no
`try`/`except` around it: a 404 response (database supplied) whose body
cannot be decoded as JSON makes the decode error propagate — the original
response is *not* returned as-is. -/
theorem claim3_counterexample :
    safeRequest (some "d") [.resp ⟨404, Option.none, "Not Found", "u"⟩]
      = (.raised .jsonDecode, [.original])
    ∧ (safeRequest (some "d") [.resp ⟨404, Option.none, "Not Found", "u"⟩]).1
        ≠ .ok ⟨404, Option.none, "Not Found", "u"⟩ :=
  ⟨rfl, fun h => Outcome.noConfusion h⟩

/-- **C3, amended.**  For every first response with status 200 or 404 (and
a database name supplied) whose body cannot be decoded as JSON, the decode
error propagates out of `_safe_request` (no further transport call is
made); likewise a decoded body whose shape cannot be inspected (e.g. a bare
number) propagates a `TypeError`.  The response is not returned as-is in
either case. -/
theorem claim3_decode_error_propagates (r : Response) (d : String)
    (tr : List CallRes) (hd : d ≠ "") (hs : r.status = 200 ∨ r.status = 404) :
    (r.body = Option.none →
      safeRequest (some d) (.resp r :: tr) = (.raised .jsonDecode, [.original]))
    ∧ ∀ n : Int, r.body = some (.num n) →
      safeRequest (some d) (.resp r :: tr) = (.raised .typeErr, [.original]) := by
  have hfalsy : dbFalsy (some d) = false := by simp [dbFalsy, hd]
  have hstat : ¬(r.status ≠ 200 ∧ r.status ≠ 404) := by
    rcases hs with h | h <;> simp [h]
  constructor
  · intro hb
    simp [safeRequest, hfalsy, hstat, hb]
  · intro n hb
    simp [safeRequest, hfalsy, hstat, hb, pyIn]

/-- **C3, witness.** -/
theorem claim3_witness :
    safeRequest (some "d") [.resp ⟨200, Option.none, "OK", "u"⟩]
      = (.raised .jsonDecode, [.original])
    ∧ safeRequest (some "d") [.resp ⟨200, some (.num 7), "OK", "u"⟩]
      = (.raised .typeErr, [.original]) :=
  ⟨(claim3_decode_error_propagates ⟨200, Option.none, "OK", "u"⟩ "d" []
      (by decide) (Or.inl rfl)).1 rfl,
   (claim3_decode_error_propagates ⟨200, some (.num 7), "OK", "u"⟩ "d" []
      (by decide) (Or.inl rfl)).2 7 rfl⟩

/-! ## Claim C4: the `database not found` prefix check -/

/-- **C4, counterexample.**  A 200 response whose body carries a top-level
`error` key with a message that does *not* start with
`database not found` still triggers a create-database call: the prefix
check is applied only on the `results`-wrapped path. -/
theorem claim4_counterexample :
    safeRequest (some "d")
      [.resp ⟨200, some (.obj [("error", .str "boom")]), "OK", "u"⟩, .exn]
      = (.ok ⟨200, some (.obj [("error", .str "boom")]), "OK", "u"⟩,
         [.original, .createDb])
    ∧ CallKind.createDb ∈ (safeRequest (some "d")
        [.resp ⟨200, some (.obj [("error", .str "boom")]), "OK", "u"⟩, .exn]).2 :=
  ⟨rfl, by decide⟩

/-- **C4, amended.**  The `database not found` prefix check guards only the
`results`-wrapped extraction path: (a) when the message is taken from the
single-entry `results` list and lacks the prefix, the original response is
returned unmodified and no create-database request is made; (b) a top-level
`error` key (of any value) triggers a create-database request regardless of
its content. -/
theorem claim4_prefix_check (r : Response) (d : String) (tr : List CallRes)
    (hd : d ≠ "") (hs : r.status = 200 ∨ r.status = 404) :
    (∀ (kvs skvs : List (String × Json)) (m : String),
      r.body = some (.obj kvs) →
      jlookup "error" kvs = Option.none →
      jlookup "results" kvs = some (.arr [.obj skvs]) →
      jlookup "error" skvs = some (.str m) →
      pyStartswith (.str m) "database not found" = .ok false →
      safeRequest (some d) (.resp r :: tr) = (.ok r, [.original]))
    ∧ ∀ (kvs : List (String × Json)) (v : Json) (c2 : CallRes) (rest2 : List CallRes),
      r.body = some (.obj kvs) →
      jlookup "error" kvs = some v →
      tr = c2 :: rest2 →
      CallKind.createDb ∈ (safeRequest (some d) (.resp r :: tr)).2 := by
  have hfalsy : dbFalsy (some d) = false := by simp [dbFalsy, hd]
  have hstat : ¬(r.status ≠ 200 ∧ r.status ≠ 404) := by
    rcases hs with h | h <;> simp [h]
  constructor
  · intro kvs skvs m hb he hr' he2 hpf
    simp [safeRequest, hfalsy, hstat, hb, pyIn, jlookup_none_any _ _ he,
      jlookup_some_any _ _ _ hr', pyDictGetD, hr', pyLen, pyIndex0,
      jlookup_some_any _ _ _ he2, pyGetItem, he2, hpf]
  · intro kvs v c2 rest2 hb he htr
    have : safeRequest (some d) (.resp r :: tr) = proceedCreate r tr := by
      simp [safeRequest, hfalsy, hstat, hb, pyIn, jlookup_some_any _ _ _ he,
        pyGetItem, he]
    rw [this, htr]
    exact proceedCreate_cons_mem r c2 rest2

/-- **C4, witness.** -/
theorem claim4_witness :
    safeRequest (some "d")
      [.resp ⟨404, some (.obj [("results", .arr [.obj [("error", .str "boom")]])]),
        "Not Found", "u"⟩]
      = (.ok ⟨404, some (.obj [("results", .arr [.obj [("error", .str "boom")]])]),
          "Not Found", "u"⟩, [.original])
    ∧ CallKind.createDb ∈ (safeRequest (some "d")
        [.resp ⟨200, some (.obj [("error", .str "nope")]), "OK", "u"⟩, .exn]).2 :=
  ⟨(claim4_prefix_check
      ⟨404, some (.obj [("results", .arr [.obj [("error", .str "boom")]])]),
        "Not Found", "u"⟩ "d" [] (by decide) (Or.inr rfl)).1
      [("results", .arr [.obj [("error", .str "boom")]])]
      [("error", .str "boom")] "boom" rfl rfl rfl rfl (by rfl),
   (claim4_prefix_check
      ⟨200, some (.obj [("error", .str "nope")]), "OK", "u"⟩ "d" [.exn]
      (by decide) (Or.inl rfl)).2
      [("error", .str "nope")] (.str "nope") .exn [] rfl rfl rfl⟩

/-! ## Claim C5: `unpack` is lenient -/

/-- **C5, counterexample.**  `unpack` is not total on all malformed inputs:
when `results` holds a non-sequence (here the number 5), `len(result)`
raises a `TypeError` instead of returning `([], [])`. -/
theorem claim5_counterexample :
    unpack (.obj [("results", .num 5)]) = .error .typeErr
    ∧ unpack (.obj [("results", .num 5)]) ≠ .ok unpackEmpty :=
  ⟨rfl, fun h => Except.noConfusion h⟩

/-- **C5, amended.**  `unpack` returns `([], [])` — without raising — for
each of the six listed inputs and for every shape in the enumerated
malformed families: missing or falsy `results`, non-dict first `results`
entry, missing or falsy `series`, non-dict first `series` entry, missing or
falsy `columns`.  (A non-sequence standing in for the `results`, `series`
or `columns` lists raises a `TypeError` instead, and a non-dict top-level
input raises an `AttributeError`.) -/
theorem claim5_unpack_lenient :
    (unpack (.obj []) = .ok unpackEmpty
     ∧ unpack (.obj [("results", .arr [])]) = .ok unpackEmpty
     ∧ unpack (.obj [("results", .arr [.obj []])]) = .ok unpackEmpty
     ∧ unpack (.obj [("results", .arr [.obj [("series", .arr [])]])]) = .ok unpackEmpty
     ∧ unpack (.obj [("results", .arr [.obj [("series", .arr [.obj []])]])])
        = .ok unpackEmpty
     ∧ unpack (.obj [("results", .arr [.obj [("series",
         .arr [.obj [("columns", .arr []), ("values", .arr [])]])]])]) = .ok unpackEmpty)
    ∧ (∀ kvs, jlookup "results" kvs = Option.none →
        unpack (.obj kvs) = .ok unpackEmpty)
    ∧ (∀ kvs rv, jlookup "results" kvs = some rv → jsonTruthy rv = false →
        unpack (.obj kvs) = .ok unpackEmpty)
    ∧ (∀ kvs x rest, jlookup "results" kvs = some (.arr (x :: rest)) →
        (∀ l, x ≠ .obj l) → unpack (.obj kvs) = .ok unpackEmpty)
    ∧ (∀ kvs rest kv0 skr, jlookup "results" kvs = some (.arr (.obj (kv0 :: skr) :: rest)) →
        jlookup "series" (kv0 :: skr) = Option.none → unpack (.obj kvs) = .ok unpackEmpty)
    ∧ (∀ kvs rest kv0 skr sv,
        jlookup "results" kvs = some (.arr (.obj (kv0 :: skr) :: rest)) →
        jlookup "series" (kv0 :: skr) = some sv → jsonTruthy sv = false →
        unpack (.obj kvs) = .ok unpackEmpty)
    ∧ (∀ kvs rest kv0 skr y yrest,
        jlookup "results" kvs = some (.arr (.obj (kv0 :: skr) :: rest)) →
        jlookup "series" (kv0 :: skr) = some (.arr (y :: yrest)) →
        (∀ l, y ≠ .obj l) → unpack (.obj kvs) = .ok unpackEmpty)
    ∧ (∀ kvs rest kv0 skr yrest sv0 s0r,
        jlookup "results" kvs = some (.arr (.obj (kv0 :: skr) :: rest)) →
        jlookup "series" (kv0 :: skr) = some (.arr (.obj (sv0 :: s0r) :: yrest)) →
        jlookup "columns" (sv0 :: s0r) = Option.none → unpack (.obj kvs) = .ok unpackEmpty)
    ∧ (∀ kvs rest kv0 skr yrest sv0 s0r cv,
        jlookup "results" kvs = some (.arr (.obj (kv0 :: skr) :: rest)) →
        jlookup "series" (kv0 :: skr) = some (.arr (.obj (sv0 :: s0r) :: yrest)) →
        jlookup "columns" (sv0 :: s0r) = some cv → jsonTruthy cv = false →
        unpack (.obj kvs) = .ok unpackEmpty) := by
  have tnull : jsonTruthy Json.null = false := rfl
  have tobj : ∀ (kv : String × Json) (l : List (String × Json)),
      jsonTruthy (Json.obj (kv :: l)) = true := fun _ _ => rfl
  have tarr : ∀ (x : Json) (l : List Json),
      jsonTruthy (Json.arr (x :: l)) = true := fun _ _ => rfl
  refine ⟨⟨rfl, rfl, rfl, rfl, rfl, rfl⟩, ?_, ?_, ?_, ?_, ?_, ?_, ?_, ?_⟩
  · intro kvs h
    simp [unpack, h, tnull]
  · intro kvs rv h hf
    simp [unpack, h, hf]
  · intro kvs x rest h hx
    rcases x with _ | b | n | s | xs | l
    · simp [unpack, h, pyLen, pyIndex0, tarr, tnull]
    · cases b <;> simp [unpack, h, pyLen, pyIndex0, tarr, jsonTruthy]
    · by_cases hn : n = 0 <;> simp [unpack, h, pyLen, pyIndex0, tarr, jsonTruthy, hn]
    · by_cases hsx : s = "" <;> simp [unpack, h, pyLen, pyIndex0, tarr, jsonTruthy, hsx]
    · rcases xs with _ | ⟨x0, xr⟩ <;> simp [unpack, h, pyLen, pyIndex0, tarr, jsonTruthy]
    · exact absurd rfl (hx l)
  · intro kvs rest kv0 skr h hs
    simp [unpack, h, pyLen, pyIndex0, tarr, tobj, tnull, hs]
  · intro kvs rest kv0 skr sv h hs hf
    simp [unpack, h, pyLen, pyIndex0, tarr, tobj, hs, hf]
  · intro kvs rest kv0 skr y yrest h hs hy
    rcases y with _ | b | n | s | xs | l
    · simp [unpack, h, pyLen, pyIndex0, tarr, tobj, tnull, hs]
    · cases b <;> simp [unpack, h, pyLen, pyIndex0, tarr, tobj, hs, jsonTruthy]
    · by_cases hn : n = 0 <;>
        simp [unpack, h, pyLen, pyIndex0, tarr, tobj, hs, jsonTruthy, hn]
    · by_cases hsx : s = "" <;>
        simp [unpack, h, pyLen, pyIndex0, tarr, tobj, hs, jsonTruthy, hsx]
    · rcases xs with _ | ⟨x0, xr⟩ <;>
        simp [unpack, h, pyLen, pyIndex0, tarr, tobj, hs, jsonTruthy]
    · exact absurd rfl (hy l)
  · intro kvs rest kv0 skr yrest sv0 s0r h hs hc
    simp [unpack, h, pyLen, pyIndex0, tarr, tobj, tnull, hs, hc]
  · intro kvs rest kv0 skr yrest sv0 s0r cv h hs hc hf
    simp [unpack, h, pyLen, pyIndex0, tarr, tobj, hs, hc, hf]

/-- **C5, witness.** -/
theorem claim5_witness : unpack (.obj [("a", Json.null)]) = .ok unpackEmpty :=
  claim5_unpack_lenient.2.1 [("a", Json.null)] rfl

/-! ## Dictionary lemmas -/

lemma dictGet_eq_none (k : String) (d : Dict) :
    dictGet k d = Option.none ↔ k ∉ d.map Prod.fst := by
  induction d with
  | nil => simp [dictGet]
  | cons kv rest ih =>
    rcases kv with ⟨k', v'⟩
    by_cases hk : k' = k
    · subst hk
      simp [dictGet]
    · simp only [dictGet, if_neg hk, List.map_cons, List.mem_cons, ih]
      constructor
      · rintro hnm (h1 | h2)
        · exact hk h1.symm
        · exact hnm h2
      · intro hn hm
        exact hn (Or.inr hm)

lemma dictGet_mem (k : String) (d : Dict) (v : PyVal)
    (h : dictGet k d = some v) : (k, v) ∈ d := by
  induction d with
  | nil => simp [dictGet] at h
  | cons kv rest ih =>
    rcases kv with ⟨k', v'⟩
    by_cases hk : k' = k
    · simp only [dictGet, if_pos hk] at h
      subst hk
      obtain rfl := Option.some.inj h
      exact List.mem_cons_self _ _
    · simp only [dictGet, if_neg hk] at h
      exact List.mem_cons_of_mem _ (ih h)

lemma mem_dictGet (k : String) (v : PyVal) (d : Dict)
    (hn : (d.map Prod.fst).Nodup) (h : (k, v) ∈ d) : dictGet k d = some v := by
  induction d with
  | nil => simp at h
  | cons kv rest ih =>
    rcases kv with ⟨k', v'⟩
    simp only [List.map_cons, List.nodup_cons] at hn
    rcases List.mem_cons.mp h with heq | hmem
    · cases heq
      simp [dictGet]
    · by_cases hk : k' = k
      · exfalso
        subst hk
        exact hn.1 (List.mem_map.mpr ⟨(k', v), hmem, rfl⟩)
      · simp only [dictGet, if_neg hk]
        exact ih hn.2 hmem

lemma dictPop_eq_some_of_get (k : String) (d : Dict) (v : PyVal)
    (h : dictGet k d = some v) : ∃ d', dictPop k d = some (v, d') := by
  induction d with
  | nil => simp [dictGet] at h
  | cons kv rest ih =>
    rcases kv with ⟨k', v'⟩
    by_cases hk : k' = k
    · simp only [dictGet, if_pos hk] at h
      exact ⟨rest, by simp [dictPop, hk, Option.some.inj h]⟩
    · simp only [dictGet, if_neg hk] at h
      obtain ⟨d', hd⟩ := ih h
      exact ⟨(k', v') :: d', by simp [dictPop, hk, hd]⟩

lemma dictPop_get (k : String) (d d' : Dict) (v : PyVal)
    (h : dictPop k d = some (v, d')) : dictGet k d = some v := by
  induction d generalizing d' with
  | nil => simp [dictPop] at h
  | cons kv rest ih =>
    rcases kv with ⟨k', v'⟩
    by_cases hk : k' = k
    · simp only [dictPop, if_pos hk] at h
      simp only [dictGet, if_pos hk]
      simp at h
      rw [h.1]
    · simp only [dictPop, if_neg hk] at h
      rcases hp : dictPop k rest with _ | ⟨w, r⟩
      · rw [hp] at h
        simp at h
      · rw [hp] at h
        simp at h
        simp only [dictGet, if_neg hk]
        exact ih r (by rw [hp, h.1])

lemma dictPop_keys (k : String) (d d' : Dict) (v : PyVal)
    (h : dictPop k d = some (v, d')) :
    d'.map Prod.fst = (d.map Prod.fst).erase k := by
  induction d generalizing d' with
  | nil => simp [dictPop] at h
  | cons kv rest ih =>
    rcases kv with ⟨k', v'⟩
    by_cases hk : k' = k
    · simp only [dictPop, if_pos hk] at h
      simp at h
      subst hk
      rw [← h.2]
      simp [List.erase_cons_head]
    · simp only [dictPop, if_neg hk] at h
      rcases hp : dictPop k rest with _ | ⟨w, r⟩
      · rw [hp] at h
        simp at h
      · rw [hp] at h
        simp at h
        rw [← h.2, List.map_cons, List.map_cons, List.erase_cons,
          ih r (by rw [hp, h.1])]
        simp [hk]

lemma mem_keys_dictSet (a k : String) (v : PyVal) (d : Dict) :
    a ∈ (dictSet k v d).map Prod.fst ↔ a = k ∨ a ∈ d.map Prod.fst := by
  induction d with
  | nil => simp [dictSet]
  | cons kv rest ih =>
    rcases kv with ⟨k', v'⟩
    by_cases hk : k' = k
    · subst hk
      rw [show dictSet k' v ((k', v') :: rest) = (k', v) :: rest from by
        simp [dictSet]]
      simp
    · rw [show dictSet k v ((k', v') :: rest) = (k', v') :: dictSet k v rest from by
        simp [dictSet, hk]]
      simp only [List.map_cons, List.mem_cons, ih]
      tauto

lemma dictSet_keys_nodup (k : String) (v : PyVal) (d : Dict)
    (h : (d.map Prod.fst).Nodup) : ((dictSet k v d).map Prod.fst).Nodup := by
  induction d with
  | nil => simp [dictSet]
  | cons kv rest ih =>
    rcases kv with ⟨k', v'⟩
    simp only [List.map_cons, List.nodup_cons] at h
    by_cases hk : k' = k
    · subst hk
      rw [show dictSet k' v ((k', v') :: rest) = (k', v) :: rest from by
        simp [dictSet]]
      simp only [List.map_cons, List.nodup_cons]
      exact h
    · rw [show dictSet k v ((k', v') :: rest) = (k', v') :: dictSet k v rest from by
        simp [dictSet, hk]]
      simp only [List.map_cons, List.nodup_cons]
      refine ⟨fun hmem => ?_, ih h.2⟩
      rcases (mem_keys_dictSet k' k v rest).mp hmem with heq | hmem'
      · exact hk heq
      · exact h.1 hmem'

lemma foldl_dictSet_nodup (ps : List (String × PyVal)) (acc : Dict)
    (h : (acc.map Prod.fst).Nodup) :
    ((ps.foldl (fun a kv => dictSet kv.1 kv.2 a) acc).map Prod.fst).Nodup := by
  induction ps generalizing acc with
  | nil => exact h
  | cons p rest ih =>
    exact ih (dictSet p.1 p.2 acc) (dictSet_keys_nodup p.1 p.2 acc h)

lemma dictZip_keys_nodup (ks : List String) (vs : List PyVal) :
    ((dictZip ks vs).map Prod.fst).Nodup :=
  foldl_dictSet_nodup (List.zip ks vs) [] (by simp)

lemma dictGet_dictSet_self (k : String) (v : PyVal) (d : Dict) :
    dictGet k (dictSet k v d) = some v := by
  induction d with
  | nil => simp [dictSet, dictGet]
  | cons kv rest ih =>
    rcases kv with ⟨k', v'⟩
    by_cases hk : k' = k
    · subst hk
      rw [show dictSet k' v ((k', v') :: rest) = (k', v) :: rest from by
        simp [dictSet]]
      simp [dictGet]
    · rw [show dictSet k v ((k', v') :: rest) = (k', v') :: dictSet k v rest from by
        simp [dictSet, hk]]
      simp only [dictGet, if_neg hk]
      exact ih

lemma dictGet_dictSet_ne (k k' : String) (v : PyVal) (d : Dict) (h : k ≠ k') :
    dictGet k (dictSet k' v d) = dictGet k d := by
  have hks : ¬k' = k := fun hh => h hh.symm
  induction d with
  | nil => simp [dictSet, dictGet, hks]
  | cons kv rest ih =>
    rcases kv with ⟨k0, v0⟩
    by_cases hk : k0 = k'
    · subst hk
      rw [show dictSet k0 v ((k0, v0) :: rest) = (k0, v) :: rest from by
        simp [dictSet]]
      simp [dictGet, hks]
    · rw [show dictSet k' v ((k0, v0) :: rest) = (k0, v0) :: dictSet k' v rest from by
        simp [dictSet, hk]]
      by_cases hk0 : k0 = k
      · simp [dictGet, hk0]
      · simp only [dictGet, if_neg hk0]
        exact ih

lemma dictGet_dictUpdate_not_mem (k : String) (base upd : Dict)
    (h : k ∉ upd.map Prod.fst) :
    dictGet k (dictUpdate base upd) = dictGet k base := by
  induction upd generalizing base with
  | nil => rfl
  | cons kv rest ih =>
    simp only [List.map_cons, List.mem_cons] at h
    push_neg at h
    rw [show dictUpdate base (kv :: rest) = dictUpdate (dictSet kv.1 kv.2 base) rest
      from rfl]
    rw [ih _ h.2]
    exact dictGet_dictSet_ne k kv.1 kv.2 base h.1

lemma dictGet_dictUpdate_mem (k : String) (v : PyVal) (base upd : Dict)
    (hnd : (upd.map Prod.fst).Nodup) (h : dictGet k upd = some v) :
    dictGet k (dictUpdate base upd) = some v := by
  induction upd generalizing base with
  | nil => simp [dictGet] at h
  | cons kv rest ih =>
    rcases kv with ⟨k0, v0⟩
    simp only [List.map_cons, List.nodup_cons] at hnd
    rw [show dictUpdate base ((k0, v0) :: rest) = dictUpdate (dictSet k0 v0 base) rest
      from rfl]
    by_cases hk : k0 = k
    · subst hk
      simp only [dictGet, if_pos rfl] at h
      obtain rfl := Option.some.inj h
      rw [dictGet_dictUpdate_not_mem _ _ _ hnd.1]
      exact dictGet_dictSet_self k0 v0 base
    · simp only [dictGet, if_neg hk] at h
      exact ih (dictSet k0 v0 base) hnd.2 h

lemma dictPop_get_ne (k k' : String) (d d' : Dict) (v : PyVal)
    (h : dictPop k' d = some (v, d')) (hk : k ≠ k') :
    dictGet k d' = dictGet k d := by
  induction d generalizing d' with
  | nil => simp [dictPop] at h
  | cons kv rest ih =>
    rcases kv with ⟨k0, v0⟩
    by_cases h0 : k0 = k'
    · simp only [dictPop, if_pos h0] at h
      simp at h
      rw [← h.2]
      subst h0
      have : ¬k0 = k := fun hh => hk (hh ▸ rfl)
      simp [dictGet, this]
    · simp only [dictPop, if_neg h0] at h
      rcases hp : dictPop k' rest with _ | ⟨w, r⟩
      · rw [hp] at h
        simp at h
      · rw [hp] at h
        simp at h
        rw [← h.2]
        by_cases hk0 : k0 = k
        · simp [dictGet, hk0]
        · simp only [dictGet, if_neg hk0]
          exact ih r (by rw [hp, h.1])

lemma dictPop_length (k : String) (d d' : Dict) (v : PyVal)
    (h : dictPop k d = some (v, d')) : d'.length + 1 = d.length := by
  induction d generalizing d' with
  | nil => simp [dictPop] at h
  | cons kv rest ih =>
    rcases kv with ⟨k0, v0⟩
    by_cases h0 : k0 = k
    · simp only [dictPop, if_pos h0] at h
      simp at h
      rw [← h.2]
      simp
    · simp only [dictPop, if_neg h0] at h
      rcases hp : dictPop k rest with _ | ⟨w, r⟩
      · rw [hp] at h
        simp at h
      · rw [hp] at h
        simp at h
        rw [← h.2]
        simp only [List.length_cons]
        rw [← ih r (by rw [hp, h.1])]

lemma popAllState_components (ks : List String) (f : Dict)
    (hall : ∀ k ∈ ks, dictGet k f ≠ Option.none) (hnd : ks.Nodup) :
    (popAllState ks f).2.2 = Option.none
    ∧ (popAllState ks f).2.1.length + ks.length = f.length
    ∧ ((popAllState ks f).1).map Prod.fst = ks := by
  induction ks generalizing f with
  | nil => simp [popAllState]
  | cons k rest ih =>
    have hk : dictGet k f ≠ Option.none := hall k (List.mem_cons_self k rest)
    rcases hg : dictGet k f with _ | v
    · exact absurd hg hk
    obtain ⟨f', hpop⟩ := dictPop_eq_some_of_get k f v hg
    simp only [List.nodup_cons] at hnd
    have hall' : ∀ k' ∈ rest, dictGet k' f' ≠ Option.none := by
      intro k' hm
      rw [dictPop_get_ne k' k f f' v hpop (fun he => hnd.1 (he ▸ hm))]
      exact hall k' (List.mem_cons_of_mem k hm)
    have hlen := dictPop_length k f f' v hpop
    obtain ⟨ih1, ih2, ih3⟩ := ih f' hall' hnd.2
    simp only [popAllState, hpop]
    refine ⟨ih1, ?_, by simp [ih3]⟩
    simp only [List.length_cons]
    omega

lemma popAllState_final_sub (ks : List String) (f : Dict) (a : String)
    (ha : a ∈ ((popAllState ks f).2.1).map Prod.fst) : a ∈ f.map Prod.fst := by
  induction ks generalizing f with
  | nil => exact ha
  | cons k rest ih =>
    rcases hp : dictPop k f with _ | ⟨w, f'⟩
    · simp only [popAllState, hp] at ha
      exact ha
    · simp only [popAllState, hp] at ha
      have := ih f' ha
      rw [dictPop_keys k f f' w hp] at this
      exact List.mem_of_mem_erase this

lemma popAllState_fst_mem (ks : List String) (f : Dict) (k : String) (v : PyVal)
    (hnd : ks.Nodup) (hall : ∀ k' ∈ ks, dictGet k' f ≠ Option.none)
    (hkm : k ∈ ks) (hv : dictGet k f = some v) :
    (k, v) ∈ (popAllState ks f).1 := by
  induction ks generalizing f with
  | nil => simp at hkm
  | cons k0 rest ih =>
    have hk0 : dictGet k0 f ≠ Option.none := hall k0 (List.mem_cons_self k0 rest)
    rcases hg : dictGet k0 f with _ | v0
    · exact absurd hg hk0
    obtain ⟨f', hpop⟩ := dictPop_eq_some_of_get k0 f v0 hg
    simp only [List.nodup_cons] at hnd
    simp only [popAllState, hpop]
    rcases List.mem_cons.mp hkm with rfl | hmem
    · rw [hv] at hg
      obtain rfl := Option.some.inj hg
      exact List.mem_cons_self _ _
    · have hne : k ≠ k0 := fun he => hnd.1 (he ▸ hmem)
      have hall' : ∀ k' ∈ rest, dictGet k' f' ≠ Option.none := by
        intro k' hm
        rw [dictPop_get_ne k' k0 f f' v0 hpop (fun he => hnd.1 (he ▸ hm))]
        exact hall k' (List.mem_cons_of_mem k0 hm)
      have hv' : dictGet k f' = some v := by
        rw [dictPop_get_ne k k0 f f' v0 hpop hne]
        exact hv
      exact List.mem_cons_of_mem _ (ih f' hnd.2 hall' hmem hv')

lemma popAllState_final_not_mem (ks : List String) (f : Dict) (k : String)
    (hnd : ks.Nodup) (hall : ∀ k' ∈ ks, dictGet k' f ≠ Option.none)
    (hndF : (f.map Prod.fst).Nodup) (hkm : k ∈ ks) :
    k ∉ ((popAllState ks f).2.1).map Prod.fst := by
  induction ks generalizing f with
  | nil => simp at hkm
  | cons k0 rest ih =>
    have hk0 : dictGet k0 f ≠ Option.none := hall k0 (List.mem_cons_self k0 rest)
    rcases hg : dictGet k0 f with _ | v0
    · exact absurd hg hk0
    obtain ⟨f', hpop⟩ := dictPop_eq_some_of_get k0 f v0 hg
    simp only [List.nodup_cons] at hnd
    simp only [popAllState, hpop]
    have hkeys := dictPop_keys k0 f f' v0 hpop
    have hndF' : (f'.map Prod.fst).Nodup := by
      rw [hkeys]
      exact hndF.erase k0
    rcases List.mem_cons.mp hkm with rfl | hmem
    · intro hmem'
      have := popAllState_final_sub rest f' k hmem'
      rw [hkeys] at this
      exact ((List.Nodup.mem_erase_iff hndF).mp this).1 rfl
    · have hall' : ∀ k' ∈ rest, dictGet k' f' ≠ Option.none := by
        intro k' hm
        rw [dictPop_get_ne k' k0 f f' v0 hpop (fun he => hnd.1 (he ▸ hm))]
        exact hall k' (List.mem_cons_of_mem k0 hm)
      exact ih f' hnd.2 hall' hndF' hmem

lemma popAllD_final_sub (ks : List String) (d : Dict) (a : String)
    (ha : a ∈ ((popAllD ks d).2).map Prod.fst) : a ∈ d.map Prod.fst := by
  induction ks generalizing d with
  | nil => exact ha
  | cons k rest ih =>
    rcases hp : dictPop k d with _ | ⟨w, d'⟩
    · simp only [popAllD, hp] at ha
      exact ih d ha
    · simp only [popAllD, hp] at ha
      have := ih d' ha
      rw [dictPop_keys k d d' w hp] at this
      exact List.mem_of_mem_erase this

lemma popAllD_fst_keys (ks : List String) (d : Dict) :
    ((popAllD ks d).1).map Prod.fst = ks := by
  induction ks generalizing d with
  | nil => rfl
  | cons k rest ih =>
    rcases hp : dictPop k d with _ | ⟨w, d'⟩ <;> simp only [popAllD, hp] <;>
      simp [ih]

lemma popAllD_fst_mem (ks : List String) (d : Dict) (k : String) (v : PyVal)
    (hnd : ks.Nodup) (hkm : k ∈ ks) (hv : dictGet k d = some v) :
    (k, v) ∈ (popAllD ks d).1 := by
  induction ks generalizing d with
  | nil => simp at hkm
  | cons k0 rest ih =>
    simp only [List.nodup_cons] at hnd
    rcases List.mem_cons.mp hkm with rfl | hmem
    · obtain ⟨d', hpop⟩ := dictPop_eq_some_of_get k d v hv
      simp only [popAllD, hpop]
      exact List.mem_cons_self _ _
    · have hne : k ≠ k0 := fun he => hnd.1 (he ▸ hmem)
      rcases hp : dictPop k0 d with _ | ⟨w, d'⟩
      · simp only [popAllD, hp]
        exact List.mem_cons_of_mem _ (ih d hnd.2 hmem hv)
      · simp only [popAllD, hp]
        have hv' : dictGet k d' = some v := by
          rw [dictPop_get_ne k k0 d d' w hp hne]
          exact hv
        exact List.mem_cons_of_mem _ (ih d' hnd.2 hmem hv')

lemma popAllD_final_not_mem (ks : List String) (d : Dict) (k : String)
    (hnd : ks.Nodup) (hndD : (d.map Prod.fst).Nodup) (hkm : k ∈ ks) :
    k ∉ ((popAllD ks d).2).map Prod.fst := by
  induction ks generalizing d with
  | nil => simp at hkm
  | cons k0 rest ih =>
    simp only [List.nodup_cons] at hnd
    rcases List.mem_cons.mp hkm with rfl | hmem
    · rcases hp : dictPop k d with _ | ⟨w, d'⟩
      · simp only [popAllD, hp]
        intro hmem'
        have := popAllD_final_sub rest d k hmem'
        exact (dictGet_eq_none k d).mp (by
          rcases hg : dictGet k d with _ | v
          · rfl
          · obtain ⟨d'', hpop⟩ := dictPop_eq_some_of_get k d v hg
            rw [hpop] at hp
            exact absurd hp (by simp)) this
      · simp only [popAllD, hp]
        intro hmem'
        have := popAllD_final_sub rest d' k hmem'
        rw [dictPop_keys k d d' w hp] at this
        exact ((List.Nodup.mem_erase_iff hndD).mp this).1 rfl
    · rcases hp : dictPop k0 d with _ | ⟨w, d'⟩
      · simp only [popAllD, hp]
        exact ih d hnd.2 hndD hmem
      · simp only [popAllD, hp]
        have hndD' : (d'.map Prod.fst).Nodup := by
          rw [dictPop_keys k0 d d' w hp]
          exact hndD.erase k0
        exact ih d' hnd.2 hndD' hmem

lemma mem_insortKey (x y : String × PyVal) (l : List (String × PyVal)) :
    y ∈ insortKey x l ↔ y = x ∨ y ∈ l := by
  induction l with
  | nil => simp [insortKey]
  | cons z rest ih =>
    by_cases h : strLe x.1 z.1 = true <;> (first
      | (simp [insortKey, h, ih]; tauto)
      | simp [insortKey, h, ih])

lemma mem_sortByKey (x : String × PyVal) (l : List (String × PyVal)) :
    x ∈ sortByKey l ↔ x ∈ l := by
  induction l with
  | nil => simp [sortByKey]
  | cons z rest ih => simp [sortByKey, mem_insortKey, ih]

lemma length_filter_lt {α : Type _} (p : α → Bool) (l : List α) (a : α)
    (ha : a ∈ l) (hpa : p a = false) : (l.filter p).length < l.length := by
  induction l with
  | nil => simp at ha
  | cons x xs ih =>
    rcases List.mem_cons.mp ha with rfl | hmem
    · simp only [List.filter_cons, hpa]
      exact Nat.lt_succ_of_le (List.length_filter_le p xs)
    · by_cases hx : p x = true <;> simp only [List.filter_cons, hx, if_true, if_false]
      · simpa using Nat.succ_lt_succ (ih hmem)
      · simp only [List.length_cons]
        exact Nat.lt_succ_of_lt (ih hmem)

lemma valueKeys_nodup (tags : Dict) (h : (tags.map Prod.fst).Nodup) :
    (valueKeys tags).Nodup := by
  unfold valueKeys
  exact ((List.filter_sublist tags).map Prod.fst).nodup h

lemma mem_valueKeys (tags : Dict) (k : String)
    (hk : (k, PyVal.str "VALUE") ∈ tags) : k ∈ valueKeys tags := by
  unfold valueKeys
  exact List.mem_map.mpr ⟨(k, PyVal.str "VALUE"), List.mem_filter.mpr ⟨hk, by simp⟩, rfl⟩

lemma popAllD_snd_nodup (ks : List String) (d : Dict)
    (h : (d.map Prod.fst).Nodup) : (((popAllD ks d).2).map Prod.fst).Nodup := by
  induction ks generalizing d with
  | nil => exact h
  | cons k rest ih =>
    rcases hp : dictPop k d with _ | ⟨w, r⟩
    · simp only [popAllD, hp]
      exact ih d h
    · simp only [popAllD, hp]
      exact ih r ((dictPop_keys k d r w hp) ▸ h.erase k)

/-! ## Claim C7: the example encode -/

/-- **C7, counterexample.**  At microsecond precision the float timestamp
`1521241703.097608192` is scaled by 1e6, so the rendered timestamp is
`1521241703097608`, not the 19-digit `1521241703097608192` of the claim
(which is the nanosecond-scale rendering). -/
theorem claim7_counterexample :
    (makeLinesSingle "m" [("field1", .float ⟨1, 1⟩), ("field2", .int 2)]
      [("tag1", .str "test_tag")] (.float ⟨1521241703097608192, 1000000000⟩)
      (some "u")).1
      = .ok "m,tag1=test_tag field1=1.0,field2=2 1521241703097608\n".toList
    ∧ "m,tag1=test_tag field1=1.0,field2=2 1521241703097608\n".toList
      ≠ "m,tag1=test_tag field1=1.0,field2=2 1521241703097608192\n".toList :=
  ⟨rfl, by decide⟩

/-- **C7, amended.**  Encoding measurement `m`, fields
`{'field1': 1.0, 'field2': 2}`, tags `{'tag1': 'test_tag'}` and timestamp
`1521241703.097608192` at the *default* precision (`None`, i.e.
nanoseconds — as the repository's own test does) produces exactly
`"m,tag1=test_tag field1=1.0,field2=2 1521241703097608192\n"`; at
microsecond precision the timestamp renders as `1521241703097608`
instead. -/
theorem claim7_example_encode :
    (makeLinesSingle "m" [("field1", .float ⟨1, 1⟩), ("field2", .int 2)]
      [("tag1", .str "test_tag")] (.float ⟨1521241703097608192, 1000000000⟩)
      Option.none).1
      = .ok "m,tag1=test_tag field1=1.0,field2=2 1521241703097608192\n".toList
    ∧ (makeLinesSingle "m" [("field1", .float ⟨1, 1⟩), ("field2", .int 2)]
      [("tag1", .str "test_tag")] (.float ⟨1521241703097608192, 1000000000⟩)
      (some "u")).1
      = .ok "m,tag1=test_tag field1=1.0,field2=2 1521241703097608\n".toList :=
  ⟨rfl, rfl⟩

/-! ## Claim C8: escaping soundness -/

lemma pyReplaceChar_append (c : Char) (rep : List Char) (a b : List Char) :
    pyReplaceChar c rep (a ++ b) = pyReplaceChar c rep a ++ pyReplaceChar c rep b := by
  induction a with
  | nil => rfl
  | cons x xs ih => simp [pyReplaceChar, ih]

lemma escapeChars_cons (c : Char) (s : List Char) :
    escapeChars (c :: s) = encChar c ++ escapeChars s := by
  by_cases h1 : c = '\\'
  · subst h1
    simp [escapeChars, pyReplaceChar, pyReplaceChar_append, encChar]
  · by_cases h2 : c = ' '
    · subst h2
      simp [escapeChars, pyReplaceChar, pyReplaceChar_append, encChar]
    · by_cases h3 : c = ','
      · subst h3
        simp [escapeChars, pyReplaceChar, pyReplaceChar_append, encChar]
      · by_cases h4 : c = '='
        · subst h4
          simp [escapeChars, pyReplaceChar, pyReplaceChar_append, encChar]
        · simp [escapeChars, pyReplaceChar, pyReplaceChar_append, encChar,
            h1, h2, h3, h4]

lemma wellEscaped_cons_ne (c : Char) (rest : List Char) (h : ¬c = '\\') :
    wellEscaped (c :: rest) = (!(c = ' ' ∨ c = ',' ∨ c = '=') && wellEscaped rest) := by
  conv_lhs => rw [wellEscaped.eq_def]
  simp [h]

lemma wellEscaped_escapeChars (s : List Char) : wellEscaped (escapeChars s) = true := by
  induction s with
  | nil => rfl
  | cons c cs ih =>
    rw [escapeChars_cons]
    by_cases h : c = '\\' ∨ c = ' ' ∨ c = ',' ∨ c = '='
    · simp [encChar, h, wellEscaped, ih]
    · have h1 : ¬c = '\\' := fun hh => h (Or.inl hh)
      have h2 : ¬c = ' ' := fun hh => h (Or.inr (Or.inl hh))
      have h3 : ¬c = ',' := fun hh => h (Or.inr (Or.inr (Or.inl hh)))
      have h4 : ¬c = '=' := fun hh => h (Or.inr (Or.inr (Or.inr hh)))
      have h5 : ¬(c = ' ' ∨ c = ',' ∨ c = '=') := fun hh => h (Or.inr hh)
      simp [encChar, h, h1, wellEscaped_cons_ne c _ h1, h5, ih]

/-- **C8, confirmed.**  Escaping soundness: the escape chain prefixes each
occurrence of backslash, space, comma and equals with a backslash (the
single-pass characterization `encChar`), so the escaped form is
well-escaped — it contains no unescaped occurrence of those characters; and
whenever an escaped tag value would end in a trailing backslash, a single
space is appended, so no escaped tag value ends in a bare backslash. -/
theorem claim8_escaping_soundness (c : Char) (cs : List Char) (v : PyVal) :
    escapeChars (c :: cs) = encChar c ++ escapeChars cs
    ∧ wellEscaped (escapeChars cs) = true
    ∧ ((escape_tag v).getLast? = some '\\' →
        escape_tag_value v = escape_tag v ++ [' '])
    ∧ (escape_tag_value v).getLast? ≠ some '\\' := by
  refine ⟨escapeChars_cons c cs, wellEscaped_escapeChars cs, ?_, ?_⟩
  · intro h
    simp [escape_tag_value, h]
  · by_cases h : (escape_tag v).getLast? = some '\\'
    · simp [escape_tag_value, h]
    · simp [escape_tag_value, h]

/-- **C8, witness.** -/
theorem claim8_witness :
    escapeChars ('a' :: " b".toList) = encChar 'a' ++ escapeChars " b".toList
    ∧ wellEscaped (escapeChars " b".toList) = true
    ∧ escape_tag_value (.str "x\\") = escape_tag (.str "x\\") ++ [' ']
    ∧ (escape_tag_value (.str "x\\")).getLast? ≠ some '\\' :=
  ⟨(claim8_escaping_soundness 'a' " b".toList (.str "x\\")).1,
   (claim8_escaping_soundness 'a' " b".toList (.str "x\\")).2.1,
   (claim8_escaping_soundness 'a' " b".toList (.str "x\\")).2.2.1 (by rfl),
   (claim8_escaping_soundness 'a' " b".toList (.str "x\\")).2.2.2⟩

/-! ## Claim C9: the named time field in `_make_many_lines` -/

/-- **C9, counterexample.**  The source pops the time field only when
`line.get(time_field)` is *truthy*, not merely present and non-null: for a
row whose `ts` value is 0 (present, non-null, falsy) the point is encoded
without a timestamp and `ts` stays in the field segment, contradicting the
claim. -/
theorem claim9_counterexample :
    (makeManyLines "m" ["alpha", "ts"] [[.int 1, .int 0]] [] (some "ts")
      Option.none).1 = .ok "m alpha=1,ts=0\n".toList
    ∧ (manyRowPoint "m" [] ["alpha", "ts"] [.int 1, .int 0] (some "ts")).time
        = Option.none
    ∧ dictGet "ts" (manyRowPoint "m" [] ["alpha", "ts"] [.int 1, .int 0]
        (some "ts")).fields = some (.int 0) :=
  ⟨rfl, rfl, rfl⟩

/-- **C9, amended.**  Multi-row expansion with a named time field: for
every row, the named field is popped out of the row's field mapping (after
value-tag extraction) and used as that point's timestamp if and only if the
time-field name is non-empty and the row's value for the field is *truthy*
(present and neither `None`, zero, `False` nor empty); otherwise the point
is encoded without a timestamp and the field mapping is left as it was
after value-tag extraction (the field stays in the field segment). -/
theorem claim9_time_field (meas : String) (vks : List String)
    (fnames : List String) (row : List PyVal) (tf : String) (htf : tf ≠ "") :
    (pyTruthy (dictGetD tf (popAllD vks (dictZip fnames row)).2 PyVal.none) = true →
      (manyRowPoint meas vks fnames row (some tf)).time
        = some (dictGetD tf (popAllD vks (dictZip fnames row)).2 PyVal.none)
      ∧ dictGet tf (manyRowPoint meas vks fnames row (some tf)).fields
        = Option.none)
    ∧ (pyTruthy (dictGetD tf (popAllD vks (dictZip fnames row)).2 PyVal.none) = false →
      (manyRowPoint meas vks fnames row (some tf)).time = Option.none
      ∧ (manyRowPoint meas vks fnames row (some tf)).fields
        = (popAllD vks (dictZip fnames row)).2) := by
  constructor
  · intro htr
    have hget : dictGet tf (popAllD vks (dictZip fnames row)).2
        = some (dictGetD tf (popAllD vks (dictZip fnames row)).2 PyVal.none) := by
      rcases hg : dictGet tf (popAllD vks (dictZip fnames row)).2 with _ | v
      · rw [dictGetD, hg] at htr
        simp [pyTruthy] at htr
      · rw [dictGetD, hg]
        rfl
    obtain ⟨d', hpop⟩ := dictPop_eq_some_of_get _ _ _ hget
    have hnd : (((popAllD vks (dictZip fnames row)).2).map Prod.fst).Nodup :=
      popAllD_snd_nodup vks _ (dictZip_keys_nodup fnames row)
    have hout : tf ∉ d'.map Prod.fst := by
      rw [dictPop_keys _ _ _ _ hpop]
      intro hmem
      exact ((List.Nodup.mem_erase_iff hnd).mp hmem).1 rfl
    simp [manyRowPoint, htf, htr, hpop, dictGet_eq_none, hout]
  · intro htr
    simp [manyRowPoint, htr]

/-- **C9, witness.** -/
theorem claim9_witness :
    (manyRowPoint "m" [] ["a", "ts"] [.int 1, .int 5] (some "ts")).time
      = some (dictGetD "ts" (popAllD [] (dictZip ["a", "ts"] [.int 1, .int 5])).2
          PyVal.none)
    ∧ dictGet "ts" (manyRowPoint "m" [] ["a", "ts"] [.int 1, .int 5]
        (some "ts")).fields = Option.none :=
  (claim9_time_field "m" [] ["a", "ts"] [.int 1, .int 5] "ts" (by decide)).1 (by rfl)

/-! ## Claim C10: in-place mutation of the caller's dicts -/

/-- **C10, confirmed.**  On the single-point encode path, value-tag
extraction mutates the caller's dictionaries in place: the sentinel entries
are deleted from the tag dict and the same-named keys popped out of the
field dict, so the final states of both dicts (the second and third
components of `makeLinesSingle`) differ from the inputs.  The multi-row
path copies the tag dict first (`tags = dict(tags)`), so the caller's
mapping is returned unchanged. -/
theorem claim10_mutation (meas : String) (fields tags : Dict) (time : PyVal)
    (precision : Option String) (k : String)
    (hk : (k, PyVal.str "VALUE") ∈ tags)
    (hndT : (tags.map Prod.fst).Nodup)
    (hall : ∀ k' ∈ valueKeys tags, dictGet k' fields ≠ Option.none) :
    ((makeLinesSingle meas fields tags time precision).2.1 ≠ tags
     ∧ (makeLinesSingle meas fields tags time precision).2.2 ≠ fields)
    ∧ ∀ (m2 : String) (fn : List String) (vals : List (List PyVal))
        (tf pr : Option String), (makeManyLines m2 fn vals tags tf pr).2 = tags := by
  have hvk : k ∈ valueKeys tags := mem_valueKeys tags k hk
  have hnvk : (valueKeys tags).Nodup := valueKeys_nodup tags hndT
  obtain ⟨hsucc, hlen, hkeys⟩ :=
    popAllState_components (valueKeys tags) fields hall hnvk
  have h21 : (makeLinesSingle meas fields tags time precision).2.1
      = stripValueTags tags := by
    simp [makeLinesSingle, hsucc]
  have h22 : (makeLinesSingle meas fields tags time precision).2.2
      = (popAllState (valueKeys tags) fields).2.1 := by
    simp [makeLinesSingle, hsucc]
  refine ⟨⟨?_, ?_⟩, fun m2 fn vals tf pr => rfl⟩
  · rw [h21]
    have hlt : (stripValueTags tags).length < tags.length :=
      length_filter_lt _ tags (k, PyVal.str "VALUE") hk (by rfl)
    intro he
    rw [he] at hlt
    exact Nat.lt_irrefl _ hlt
  · rw [h22]
    have hpos : 0 < (valueKeys tags).length := List.length_pos_of_mem hvk
    have hlt : ((popAllState (valueKeys tags) fields).2.1).length < fields.length := by
      omega
    intro he
    rw [he] at hlt
    exact Nat.lt_irrefl _ hlt

/-- **C10, witness.** -/
theorem claim10_witness :
    ((makeLinesSingle "m" [("a", PyVal.int 1)] [("a", PyVal.str "VALUE")]
        (PyVal.int 0) Option.none).2.1 ≠ [("a", PyVal.str "VALUE")]
     ∧ (makeLinesSingle "m" [("a", PyVal.int 1)] [("a", PyVal.str "VALUE")]
        (PyVal.int 0) Option.none).2.2 ≠ [("a", PyVal.int 1)])
    ∧ (makeManyLines "x" ["a"] [[PyVal.int 2]] [("a", PyVal.str "VALUE")]
        Option.none Option.none).2 = [("a", PyVal.str "VALUE")] :=
  ⟨(claim10_mutation "m" [("a", PyVal.int 1)] [("a", PyVal.str "VALUE")]
      (PyVal.int 0) Option.none "a" (by decide) (by decide) (by decide)).1,
   (claim10_mutation "x" [("a", PyVal.int 1)] [("a", PyVal.str "VALUE")]
      (PyVal.int 0) Option.none "a" (by decide) (by decide) (by decide)).2
      "x" ["a"] [[PyVal.int 2]] Option.none Option.none⟩

/-! ## Claim C6: value-tag extraction -/

lemma renderTagPairs_mem (tags : Dict) (k : String) (v : PyVal)
    (hm : (k, v) ∈ tags)
    (hkne : escapeChars k.toList ≠ []) (hvne : escape_tag_value v ≠ []) :
    (escapeChars k.toList ++ '=' :: escape_tag_value v) ∈ renderTagPairs tags := by
  unfold renderTagPairs
  refine List.mem_filterMap.mpr ⟨(k, v), (mem_sortByKey _ _).mpr hm, ?_⟩
  have hkne' : ¬escapeChars k.data = [] := hkne
  simp [hkne', hvne]

lemma dictGet_pointMergedTags (static : Dict) (p : Point) (k : String) (v : PyVal)
    (hnd : (p.tags.map Prod.fst).Nodup) (h : dictGet k p.tags = some v) :
    dictGet k (pointMergedTags static p) = some v := by
  unfold pointMergedTags
  split
  · exact h
  · exact dictGet_dictUpdate_mem k v static p.tags hnd h

lemma manyRowPoint_tags (meas : String) (vks : List String) (fnames : List String)
    (row : List PyVal) (tf : Option String) :
    (manyRowPoint meas vks fnames row tf).tags = (popAllD vks (dictZip fnames row)).1 := by
  rcases tf with _ | t
  · rfl
  · simp only [manyRowPoint]
    split
    · rcases hdp : dictPop t ((popAllD vks (dictZip fnames row)).2) with _ | ⟨vv, ll⟩ <;>
        simp [hdp]
    · rfl

lemma manyRowPoint_fields_sub (meas : String) (vks : List String)
    (fnames : List String) (row : List PyVal) (tf : Option String) (a : String)
    (ha : a ∈ ((manyRowPoint meas vks fnames row tf).fields).map Prod.fst) :
    a ∈ ((popAllD vks (dictZip fnames row)).2).map Prod.fst := by
  rcases tf with _ | t
  · exact ha
  · simp only [manyRowPoint] at ha
    split at ha
    · rcases hdp : dictPop t ((popAllD vks (dictZip fnames row)).2) with _ | ⟨vv, ll⟩
      · rw [hdp] at ha
        exact ha
      · rw [hdp] at ha
        simp only at ha
        rw [dictPop_keys t _ ll vv hdp] at ha
        exact List.mem_of_mem_erase ha
    · exact ha

/-- **C6, counterexample.**  When the same-named field's value renders
empty (here `None`), `make_lines` drops the tag pair entirely: the encoded
line shows no `a=<value>` in the tag segment, contradicting the claim for
such points. -/
theorem claim6_counterexample :
    (makeLinesSingle "m" [("a", PyVal.none)] [("a", PyVal.str "VALUE")]
      (PyVal.int 0) Option.none).1 = .ok "m  0\n".toList
    ∧ renderTagPairs (pointMergedTags (stripValueTags [("a", PyVal.str "VALUE")])
        ⟨"m", (popAllState (valueKeys [("a", PyVal.str "VALUE")]) [("a", PyVal.none)]).2.1,
         (popAllState (valueKeys [("a", PyVal.str "VALUE")]) [("a", PyVal.none)]).1,
         some (PyVal.int 0)⟩) = [] :=
  ⟨rfl, rfl⟩

/-- **C6, amended.**  Value-tag extraction: for every point whose tag
mapping contains a key bound to the sentinel `VALUE` and whose field
mapping (or per-row field mapping on the multi-row path) contains the same
key with a value whose escaped rendering is non-empty, the encoded line
shows `key=<that field's value>` in the tag segment (the rendered pair is
among the tag pairs of the merged tag dict the point is encoded with) and
the key does not appear in the field segment (it is removed from the
point's field dict).  A value rendering empty (`None` or the empty string)
is dropped from the tag segment by `make_lines`' empty-value filter. -/
theorem claim6_value_tag_extraction
    (meas : String) (fields tags : Dict) (time : PyVal) (k : String) (v : PyVal)
    (fnames : List String) (row : List PyVal) (tf : Option String) (w : PyVal)
    (hndT : (tags.map Prod.fst).Nodup) (hkT : (k, PyVal.str "VALUE") ∈ tags)
    (hndF : (fields.map Prod.fst).Nodup)
    (hall : ∀ k' ∈ valueKeys tags, dictGet k' fields ≠ Option.none)
    (hget : dictGet k fields = some v)
    (hkne : escapeChars k.toList ≠ []) (hvne : escape_tag_value v ≠ [])
    (hgetr : dictGet k (dictZip fnames row) = some w)
    (hwne : escape_tag_value w ≠ []) :
    ((escapeChars k.toList ++ '=' :: escape_tag_value v) ∈
        renderTagPairs (pointMergedTags (stripValueTags tags)
          ⟨meas, (popAllState (valueKeys tags) fields).2.1,
           (popAllState (valueKeys tags) fields).1, some time⟩)
      ∧ k ∉ ((popAllState (valueKeys tags) fields).2.1).map Prod.fst)
    ∧ ((escapeChars k.toList ++ '=' :: escape_tag_value w) ∈
        renderTagPairs (pointMergedTags (stripValueTags tags)
          (manyRowPoint meas (valueKeys tags) fnames row tf))
      ∧ k ∉ ((manyRowPoint meas (valueKeys tags) fnames row tf).fields).map
          Prod.fst) := by
  have hvk : k ∈ valueKeys tags := mem_valueKeys tags k hkT
  have hnvk : (valueKeys tags).Nodup := valueKeys_nodup tags hndT
  constructor
  · obtain ⟨hsucc, hlen, hkeys⟩ :=
      popAllState_components (valueKeys tags) fields hall hnvk
    have hmem := popAllState_fst_mem (valueKeys tags) fields k v hnvk hall hvk hget
    have hndpt : (((popAllState (valueKeys tags) fields).1).map Prod.fst).Nodup := by
      rw [hkeys]
      exact hnvk
    have hgetpt : dictGet k ((popAllState (valueKeys tags) fields).1) = some v :=
      mem_dictGet k v _ hndpt hmem
    have hmerged := dictGet_pointMergedTags (stripValueTags tags)
      ⟨meas, (popAllState (valueKeys tags) fields).2.1,
       (popAllState (valueKeys tags) fields).1, some time⟩ k v hndpt hgetpt
    exact ⟨renderTagPairs_mem _ k v (dictGet_mem k _ v hmerged) hkne hvne,
      popAllState_final_not_mem (valueKeys tags) fields k hnvk hall hndF hvk⟩
  · have hndzip := dictZip_keys_nodup fnames row
    have hmemD := popAllD_fst_mem (valueKeys tags) (dictZip fnames row) k w hnvk hvk hgetr
    have hndptD : (((popAllD (valueKeys tags) (dictZip fnames row)).1).map
        Prod.fst).Nodup := by
      rw [popAllD_fst_keys]
      exact hnvk
    have hgetptD : dictGet k ((popAllD (valueKeys tags) (dictZip fnames row)).1)
        = some w := mem_dictGet k w _ hndptD hmemD
    have htags := manyRowPoint_tags meas (valueKeys tags) fnames row tf
    have hmerged := dictGet_pointMergedTags (stripValueTags tags)
      (manyRowPoint meas (valueKeys tags) fnames row tf) k w
      (by rw [htags]; exact hndptD) (by rw [htags]; exact hgetptD)
    refine ⟨renderTagPairs_mem _ k w (dictGet_mem k _ w hmerged) hkne hwne, ?_⟩
    intro hmem'
    exact popAllD_final_not_mem (valueKeys tags) (dictZip fnames row) k hnvk hndzip hvk
      (manyRowPoint_fields_sub meas (valueKeys tags) fnames row tf k hmem')

/-- **C6, witness.** -/
theorem claim6_witness :
    ((escapeChars "a".toList ++ '=' :: escape_tag_value (PyVal.int 7)) ∈
        renderTagPairs (pointMergedTags (stripValueTags [("a", PyVal.str "VALUE")])
          ⟨"m", (popAllState (valueKeys [("a", PyVal.str "VALUE")])
              [("a", PyVal.int 7)]).2.1,
           (popAllState (valueKeys [("a", PyVal.str "VALUE")])
              [("a", PyVal.int 7)]).1, some (PyVal.int 0)⟩)
      ∧ "a" ∉ ((popAllState (valueKeys [("a", PyVal.str "VALUE")])
          [("a", PyVal.int 7)]).2.1).map Prod.fst)
    ∧ ((escapeChars "a".toList ++ '=' :: escape_tag_value (PyVal.int 3)) ∈
        renderTagPairs (pointMergedTags (stripValueTags [("a", PyVal.str "VALUE")])
          (manyRowPoint "m" (valueKeys [("a", PyVal.str "VALUE")]) ["a", "b"]
            [PyVal.int 3, PyVal.int 4] Option.none))
      ∧ "a" ∉ ((manyRowPoint "m" (valueKeys [("a", PyVal.str "VALUE")]) ["a", "b"]
          [PyVal.int 3, PyVal.int 4] Option.none).fields).map Prod.fst) :=
  claim6_value_tag_extraction "m" [("a", PyVal.int 7)] [("a", PyVal.str "VALUE")]
    (PyVal.int 0) "a" (PyVal.int 7) ["a", "b"] [PyVal.int 3, PyVal.int 4]
    Option.none (PyVal.int 3) (by decide) (by decide) (by decide) (by decide)
    (by rfl) (by decide) (by decide) (by rfl) (by decide)

end Influx
